import Mathlib

/-!
Shallow embedding of `src/worker.ts` from the cf-gemini-proxy repository.

Conventions of the embedding:
* HTTP header sets are association lists with lower-case names (the JS
  `Headers` class is case-insensitive and normalizes names to lower case);
  `hGet`/`hSet`/`hDelete` model `Headers.get`/`set`/`delete`.
* JS numbers used as weights are modelled as rationals, timestamps
  (`Date.now()` values) as integers; `Date.now()` is passed in as a `now`
  parameter, held fixed for the duration of one request.
* `Math.random()` draws are supplied as an explicit rational parameter per
  attempt; the upstream `fetch` is an oracle mapping the attempt number and
  the chosen credential to either a response or a network error.
* A JS runtime `TypeError` (e.g. `canUse(undefined)`) is modelled with
  `Except`; `.error` means the worker script throws.
-/

namespace CfGeminiProxy

/-- Models the JS `String.prototype.trim` over the character list of a string
(strip leading and trailing whitespace). -/
def jsTrim (s : String) : String :=
  ⟨((s.data.dropWhile Char.isWhitespace).reverse.dropWhile Char.isWhitespace).reverse⟩

/-- Models `String.prototype.startsWith`. -/
def jsStartsWith (s pre : String) : Bool :=
  pre.data.isPrefixOf s.data

/-- Models `String.prototype.slice(n)` for a non-negative start. -/
def jsDrop (s : String) (n : Nat) : String := ⟨s.data.drop n⟩

/-- Models `String.prototype.slice(0, n)`. -/
def jsTake (s : String) (n : Nat) : String := ⟨s.data.take n⟩

/-- Helper for `jsSplitComma`, accumulating the current field reversed. -/
def jsSplitCommaGo (cur : List Char) : List Char → List String
  | [] => [⟨cur.reverse⟩]
  | c :: rest =>
    if c = ',' then ⟨cur.reverse⟩ :: jsSplitCommaGo [] rest
    else jsSplitCommaGo (c :: cur) rest

/-- Models `String.prototype.split(",")` (the separator is non-empty, so the
JS and the straightforward field-by-field semantics agree). -/
def jsSplitComma (s : String) : List String := jsSplitCommaGo [] s.data

/-- Header association list; names are stored lower-case. -/
abbrev HeaderList := List (String × String)

/-- Models `Headers.get`: the value stored under the (lower-case) name. -/
def hGet : HeaderList → String → Option String
  | [], _ => none
  | p :: rest, k => if p.1 = k then some p.2 else hGet rest k

/-- Models `Headers.delete`. -/
def hDelete : HeaderList → String → HeaderList
  | [], _ => []
  | p :: rest, k => if p.1 = k then hDelete rest k else p :: hDelete rest k

/-- Models `Headers.set`: removes any value under the name, adds the new one. -/
def hSet (hs : HeaderList) (k v : String) : HeaderList :=
  hDelete hs k ++ [(k, v)]

/-- `type PoolItem = { key: string; weight?: number; cooldownUntil?: number; bad?: boolean }`
(worker.ts line 15).  An absent optional field is `none`/`false`. -/
structure PoolItem where
  key : String
  weight : Option ℚ := none
  cooldownUntil : Option Int := none
  bad : Bool := false
deriving Repr, DecidableEq

/-- `canUse` (worker.ts lines 205-209):
`if (it.bad) return false; if (it.cooldownUntil && it.cooldownUntil > Date.now()) return false; return true;`
The `it.cooldownUntil &&` truthiness test means a cooldown of exactly `0` is ignored. -/
def canUse (it : PoolItem) (now : Int) : Bool :=
  if it.bad then false
  else
    match it.cooldownUntil with
    | some c => if c ≠ 0 ∧ c > now then false else true
    | none => true

/-- Recursive rendering of the `for (const it of list)` loop of `normalizePool`
(worker.ts lines 193-203), carrying the `seen` set. -/
def normalizePoolGo (seen : List String) : List PoolItem → List PoolItem
  | [] => []
  | it :: rest =>
    let k := jsTrim it.key
    if k = "" ∨ seen.contains k then normalizePoolGo seen rest
    else { key := k, weight := some (it.weight.getD 1) } :: normalizePoolGo (k :: seen) rest

/-- `normalizePool` (worker.ts lines 193-203): trims keys, drops empty and
duplicate keys (first occurrence wins), emits `{ key, weight: it.weight ?? 1 }`. -/
def normalizePool (list : List PoolItem) : List PoolItem :=
  normalizePoolGo [] list

/-- `hashStr` (worker.ts lines 278-285): 32-bit FNV-1a over the code units of
the string (`h ^= charCode; h = Math.imul(h, 16777619)`), starting from
2166136261, all arithmetic modulo 2^32. -/
def hashStr (s : String) : Nat :=
  s.data.foldl (fun h c => ((h ^^^ c.toNat) * 16777619) % 4294967296) 2166136261

/-- Models the JS expression `a || b` where `a` is `string | null` and `b` a
string: the left operand wins when it is truthy (non-null, non-empty). -/
def jsOr (a : Option String) (b : String) : String :=
  match a with
  | some s => if s = "" then b else s
  | none => b

/-- The sticky seed expression of `loadPool` (worker.ts lines 173-177):
`req.headers.get("x-forwarded-for") || req.headers.get("cf-connecting-ip") || req.headers.get("authorization") || u.hostname`. -/
def stickySeedOf (hdrs : HeaderList) (hostname : String) : String :=
  jsOr (hGet hdrs "x-forwarded-for")
    (jsOr (hGet hdrs "cf-connecting-ip")
      (jsOr (hGet hdrs "authorization") hostname))

/-- The cooldown-expiry sweep of `loadPool` (worker.ts lines 185-188):
`if (it.cooldownUntil && it.cooldownUntil < now) it.cooldownUntil = undefined`. -/
def clearExpired (pool : List PoolItem) (now : Int) : List PoolItem :=
  pool.map fun it =>
    match it.cooldownUntil with
    | some c => if c ≠ 0 ∧ c < now then { it with cooldownUntil := none } else it
    | none => it

/-- Result of `loadPool`: the pool plus the optional sticky index. -/
structure LoadResult where
  pool : List PoolItem
  stickyIndex : Option Nat
deriving Repr, DecidableEq

/-- `loadPool` (worker.ts lines 147-191).  `kvDoc` models the outcome of the
KV read plus `JSON.parse`: `some keys` when `env.KEYPOOL` is bound, the `pool`
entry exists and parses to `{ keys }`; `none` for an unbound namespace, a
missing entry, or a parse error (all of which leave `pool = []`).
`geminiKeys` models `env.GEMINI_KEYS`; `ureq` models the optional `(u, req)`
pair as (request headers, `u.hostname`). -/
def loadPool (kvDoc : Option (List PoolItem)) (geminiKeys : Option String)
    (ureq : Option (HeaderList × String)) (now : Int) : LoadResult :=
  let pool : List PoolItem :=
    match kvDoc with
    | some keys => normalizePool keys
    | none => []
  let pool : List PoolItem :=
    if pool.length = 0 then
      match geminiKeys with
      | some s =>
        if s ≠ "" then
          normalizePool ((jsSplitComma s).map fun t => { key := jsTrim t, weight := some 1 })
        else pool
      | none => pool
    else pool
  let stickyIndex : Option Nat :=
    match ureq with
    | some (hdrs, hostname) =>
      if pool.length > 0 then
        let seed := stickySeedOf hdrs hostname
        if seed ≠ "" then some (hashStr seed % pool.length) else none
      else none
    | none => none
  { pool := clearExpired pool now, stickyIndex := stickyIndex }

/-- The `usable` list built at the top of `pickIndex` (worker.ts lines 212-214):
`pool.map((it, i) => ({it, i})).filter(({it, i}) => canUse(it) && !tried.includes(i))`,
as (index, item) pairs. -/
def usableList (pool : List PoolItem) (tried : List Nat) (now : Int) :
    List (Nat × PoolItem) :=
  pool.enum.filter fun p => canUse p.2 now && !(tried.contains p.1)

/-- The cumulative-weight walk of `pickIndex` (worker.ts lines 223-226):
`for (const x of usable) { r -= x.it.weight ?? 1; if (r <= 0) return x.i; }`. -/
def weightedWalk (r : ℚ) : List (Nat × PoolItem) → Option Nat
  | [] => none
  | x :: xs =>
    if r - x.2.weight.getD 1 ≤ 0 then some x.1
    else weightedWalk (r - x.2.weight.getD 1) xs

/-- Weighted-random part of `pickIndex` (worker.ts lines 221-227): total weight,
`r = Math.random() * total` (`rnd` is the `Math.random()` draw), walk, and the
defensive fallback `usable[usable.length - 1].i`. -/
def weightedPick (usable : List (Nat × PoolItem)) (rnd : ℚ) : Int :=
  let total : ℚ := usable.foldl (fun s x => s + x.2.weight.getD 1) 0
  match weightedWalk (rnd * total) usable with
  | some i => (i : Int)
  | none => (((usable.getLast?.map Prod.fst).getD 0 : Nat) : Int)

/-- `pickIndex` (worker.ts lines 211-228).  Returns `.ok (-1)` for an empty
candidate set, `.ok idx` otherwise; `.error ()` models the `TypeError` thrown
by `canUse(pool[sticky])` when `sticky` is out of range (`pool[sticky]` is
`undefined`). -/
def pickIndex (pool : List PoolItem) (sticky : Option Nat) (tried : List Nat)
    (rnd : ℚ) (now : Int) : Except Unit Int :=
  let usable := usableList pool tried now
  if usable.length = 0 then .ok (-1)
  else
    match sticky with
    | some s =>
      if tried.contains s then .ok (weightedPick usable rnd)
      else
        match pool.get? s with
        | some it => if canUse it now then .ok (s : Int) else .ok (weightedPick usable rnd)
        | none => .error ()
    | none => .ok (weightedPick usable rnd)

/-- The bearer-token extraction of `checkProxyAuth` (worker.ts lines 117-118):
`auth.startsWith("Bearer ") ? auth.slice(7).trim() : ""` with
`auth = req.headers.get("authorization") || ""`. -/
def bearerToken (hdrs : HeaderList) : String :=
  let auth := (hGet hdrs "authorization").getD ""
  if jsStartsWith auth "Bearer " then jsTrim (jsDrop auth 7) else ""

/-- `checkProxyAuth` (worker.ts lines 113-127).  `proxyKey` models
`env.PROXY_KEY`; `if (!proxyKey) return false` treats both an unset and an
empty secret as unconfigured. -/
def checkProxyAuth (hdrs : HeaderList) (proxyKey : Option String) : Bool :=
  match proxyKey with
  | none => false
  | some pk =>
    if pk = "" then false
    else
      let token := bearerToken hdrs
      let xg := jsTrim ((hGet hdrs "x-goog-api-key").getD "")
      let xk := jsTrim ((hGet hdrs "x-api-key").getD "")
      token = pk || xg = pk || xk = pk

/-- `CORS_ALLOW` (worker.ts line 18). -/
def CORS_ALLOW : List String := ["*"]

/-- The allow-origin value computed by `cors` (worker.ts lines 130-132):
`CORS_ALLOW.includes("*") || (o && CORS_ALLOW.includes(o)) ? (o ?? "*") : CORS_ALLOW[0] ?? "*"`
where `o = req.headers.get("Origin")`. -/
def corsAllowValue (origin : Option String) : String :=
  if CORS_ALLOW.contains "*" ||
      (match origin with
       | some o => decide (o ≠ "") && CORS_ALLOW.contains o
       | none => false) then
    origin.getD "*"
  else (CORS_ALLOW.head?).getD "*"

/-- The header object returned by `cors` (worker.ts lines 129-138), with names
lower-cased as the `Headers` class stores them. -/
def corsHeaders (origin : Option String) : HeaderList :=
  [("access-control-allow-origin", corsAllowValue origin),
   ("access-control-allow-headers", "Content-Type, Authorization"),
   ("access-control-allow-methods", "GET, POST, OPTIONS")]

/-- `applyCors` (worker.ts lines 140-143): `for (const [k, v] of entries) h.set(k, v)`. -/
def applyCors (h : HeaderList) (origin : Option String) : HeaderList :=
  (corsHeaders origin).foldl (fun acc kv => hSet acc kv.1 kv.2) h

/-- `forwardHeaders` (worker.ts lines 236-254): force `Content-Type`, delete
`authorization` and the platform/hop-by-hop headers.  Only these names are
touched; every other inbound header passes through. -/
def forwardHeaders (reqHeaders : HeaderList) : HeaderList :=
  hDelete (hDelete (hDelete (hDelete (hDelete (hDelete (hDelete (hDelete
    (hSet reqHeaders "content-type" "application/json")
    "authorization") "host") "cf-connecting-ip") "cf-ipcountry") "cf-ray")
    "cf-visitor") "connection") "keep-alive"

/-- Minimal JSON value type for the bodies built by `json(...)`. -/
inductive JVal where
  | jnull
  | jbool (b : Bool)
  | jnum (n : Int)
  | jstr (s : String)
  | jobj (fields : List (String × JVal))
deriving Repr

/-- The possible values of the `lastErr` variable of the retry loop
(worker.ts lines 57, 83, 90, 100): the initial `null`, a thrown string, the
`safeClone` record `{ status, body }`, or a caught error object whose
display string is `e.message || String(e)`. -/
inductive LastErr where
  | initNull
  | strE (s : String)
  | respErr (status : Nat) (body : String)
  | exn (msg : String)
deriving Repr, DecidableEq

/-- The body truncation of `safeClone` (worker.ts lines 262-269): `t.slice(0, 2048)`. -/
def safeCloneBody (body : String) : String := jsTake body 2048

/-- `serializeErr` (worker.ts lines 271-276): `null` for no error, the string
itself, the clone record when `e.status` is truthy, else `{ message }`. -/
def serializeErr : LastErr → JVal
  | .initNull => .jnull
  | .strE s => .jstr s
  | .respErr st b =>
    if st ≠ 0 then .jobj [("status", .jnum st), ("body", .jstr b)]
    else .jobj [("message", .jstr "[object Object]")]
  | .exn m => .jobj [("message", .jstr m)]

/-- Outcome of one upstream `fetch` call: a response (status, headers, body
stream) or a thrown network-level error with its display message. -/
inductive UpstreamResult where
  | resp (status : Nat) (headers : HeaderList) (body : String)
  | netErr (msg : String)

/-- Response body as the worker emits it: `null`, a passed-through upstream
stream, or `JSON.stringify` of a `JVal`. -/
inductive RespBody where
  | noBody
  | stream (s : String)
  | jsonOf (j : JVal)
deriving Repr

/-- A `Response` as far as the embedding needs it. -/
structure Resp where
  status : Nat
  headers : HeaderList
  body : RespBody
deriving Repr

/-- `json(data, status, u, req)` (worker.ts lines 256-260); every call site
passes `u` and `req`, so the CORS headers are always merged in. -/
def jsonResp (data : JVal) (status : Nat) (origin : Option String) : Resp :=
  { status := status,
    headers := [("content-type", "application/json")] ++ corsHeaders origin,
    body := .jsonOf data }

/-- Mutable state of the retry loop: the pool (entries are mutated in place by
`markCooldown` / `it.bad = true`), `triedIdx`, and `lastErr`. -/
structure LoopState where
  pool : List PoolItem
  tried : List Nat
  lastErr : LastErr

/-- How the `for` loop of `fetch` ends: an early `return` with a response,
falling through to the final `All keys failed` return (loop condition
exhausted or `break` on `idx === -1`), or a thrown `TypeError`. -/
inductive LoopOutcome where
  | returned (r : Resp)
  | exhausted (lastErr : LastErr)
  | crashed

/-- The retry loop of `fetch` (worker.ts lines 61-104).  `fuel` is the
remaining iteration budget (`pool.length - attempt`), `attemptNo` the current
value of `attempt` (used to index the oracle and the random draws).  Returns
the outcome together with the number of upstream calls actually issued. -/
def runLoop (oracle : Nat → String → UpstreamResult) (rnd : Nat → ℚ) (now : Int)
    (sticky : Option Nat) (origin : Option String) :
    Nat → Nat → LoopState → LoopOutcome × Nat
  | 0, _, st => (.exhausted st.lastErr, 0)
  | fuel + 1, attemptNo, st =>
    match pickIndex st.pool sticky st.tried (rnd attemptNo) now with
    | .error _ => (.crashed, 0)
    | .ok idx =>
      if idx = -1 then (.exhausted st.lastErr, 0)
      else
        match st.pool.get? idx.toNat with
        | none => (.crashed, 0)
        | some it =>
          if canUse it now = false then
            runLoop oracle rnd now sticky origin fuel (attemptNo + 1)
              { st with tried := st.tried ++ [idx.toNat] }
          else
            match oracle attemptNo it.key with
            | .resp status hdrs body =>
              if status = 429 then
                let res := runLoop oracle rnd now sticky origin fuel (attemptNo + 1)
                  { pool := st.pool.set idx.toNat { it with cooldownUntil := some (now + 30000) },
                    tried := st.tried ++ [idx.toNat],
                    lastErr := .respErr status (safeCloneBody body) }
                (res.1, res.2 + 1)
              else if status = 401 ∨ status = 403 then
                let res := runLoop oracle rnd now sticky origin fuel (attemptNo + 1)
                  { pool := st.pool.set idx.toNat { it with bad := true },
                    tried := st.tried ++ [idx.toNat],
                    lastErr := .respErr status (safeCloneBody body) }
                (res.1, res.2 + 1)
              else
                (.returned { status := status,
                             headers := hDelete (applyCors hdrs origin) "transfer-encoding",
                             body := .stream body }, 1)
            | .netErr msg =>
              let res := runLoop oracle rnd now sticky origin fuel (attemptNo + 1)
                { pool := st.pool.set idx.toNat { it with cooldownUntil := some (now + 5000) },
                  tried := st.tried ++ [idx.toNat],
                  lastErr := .exn msg }
              (res.1, res.2 + 1)

/-- Inbound request, reduced to the parts the worker inspects. -/
structure Request where
  method : String
  pathname : String
  hostname : String
  headers : HeaderList

/-- Worker environment: `kvDoc` is the parsed KV `pool` document (see
`loadPool`), `geminiKeys` is `env.GEMINI_KEYS`, `proxyKey` is `env.PROXY_KEY`. -/
structure EnvModel where
  kvDoc : Option (List PoolItem)
  geminiKeys : Option String
  proxyKey : Option String

/-- The `fetch` handler (worker.ts lines 21-108): OPTIONS preflight, `/healthz`,
prefix check, proxy auth, pool load, retry loop, `All keys failed` fallback.
Returns the response together with the number of upstream calls made; `none`
models the worker script throwing. -/
def handleFetch (env : EnvModel) (req : Request)
    (oracle : Nat → String → UpstreamResult) (rnd : Nat → ℚ) (now : Int) :
    Option (Resp × Nat) :=
  let origin := hGet req.headers "origin"
  if req.method = "OPTIONS" then
    some ({ status := 200, headers := corsHeaders origin, body := .noBody }, 0)
  else if req.pathname = "/healthz" then
    let pool := (loadPool env.kvDoc env.geminiKeys none now).pool
    let usable := (pool.filter (fun it => canUse it now)).length
    some (jsonResp (.jobj [("ok", .jbool (decide (0 < usable))),
                           ("size", .jnum pool.length),
                           ("usable", .jnum usable),
                           ("ts", .jnum now)]) 200 origin, 0)
  else if jsStartsWith req.pathname "/v1beta/" = false then
    some (jsonResp (.jobj [("error", .jstr "Not Found")]) 404 origin, 0)
  else if checkProxyAuth req.headers env.proxyKey = false then
    some (jsonResp (.jobj [("error", .jstr "Unauthorized")]) 401 origin, 0)
  else
    let lr := loadPool env.kvDoc env.geminiKeys (some (req.headers, req.hostname)) now
    if lr.pool.length = 0 then
      some (jsonResp (.jobj [("error", .jstr "No API keys configured")]) 500 origin, 0)
    else
      let res := runLoop oracle rnd now lr.stickyIndex origin lr.pool.length 0
        { pool := lr.pool, tried := [], lastErr := .initNull }
      match res.1 with
      | .returned r => some (r, res.2)
      | .exhausted le =>
        some (jsonResp (.jobj [("error", .jstr "All keys failed"),
                               ("detail", serializeErr le)]) 502 origin, res.2)
      | .crashed => none

/-! ### Header-list lemmas -/

theorem hGet_hDelete (hs : HeaderList) (k k' : String) :
    hGet (hDelete hs k) k' = if k' = k then none else hGet hs k' := by
  induction hs with
  | nil => simp [hGet, hDelete]
  | cons a t ih =>
    by_cases hk' : k' = k
    · subst hk'
      simp only [if_pos rfl] at *
      by_cases hak : a.1 = k'
      · simpa [hDelete, hak] using ih
      · simpa [hDelete, hak, hGet] using ih
    · simp only [if_neg hk'] at *
      by_cases hak : a.1 = k
      · have hax : ¬ a.1 = k' := fun h => hk' (h.symm.trans hak)
        have hkk' : ¬ k = k' := fun h => hk' h.symm
        simpa [hDelete, hak, hGet, hax, hkk'] using ih
      · simp [hDelete, hak, hGet, ih]

theorem hGet_append (l₁ l₂ : HeaderList) (k : String) :
    hGet (l₁ ++ l₂) k = ((hGet l₁ k).map some).getD (hGet l₂ k) := by
  induction l₁ with
  | nil => simp [hGet]
  | cons a t ih =>
    by_cases hak : a.1 = k <;> simp [hGet, hak, ih]

theorem hGet_hSet (hs : HeaderList) (k v k' : String) :
    hGet (hSet hs k v) k' = if k' = k then some v else hGet hs k' := by
  unfold hSet
  rw [hGet_append, hGet_hDelete]
  by_cases hk' : k' = k
  · simp [hk', hGet]
  · have : ¬ k = k' := fun h => hk' h.symm
    cases h : hGet hs k' <;> simp [hk', hGet, this, h]

/-! ### C1 -/

/-- C1, counterexample: the claim says the outbound header set never contains
the inbound proxy-secret header under any of its three accepted forms.  On the
concrete request whose only header is `x-goog-api-key: proxy-secret` — a header
that `checkProxyAuth` accepts as the proxy secret — `forwardHeaders` keeps that
header unchanged, so the secret does reach the backend. -/
theorem c1_counterexample :
    checkProxyAuth [("x-goog-api-key", "proxy-secret")] (some "proxy-secret") = true ∧
    hGet (forwardHeaders [("x-goog-api-key", "proxy-secret")]) "x-goog-api-key" =
      some "proxy-secret" := by
  exact ⟨by decide, by decide⟩

/-- C1, amended: for every inbound request, the header set produced by
`forwardHeaders` never contains the `authorization` header (the bearer form of
the proxy secret is stripped before the upstream call), but the
`x-goog-api-key` and `x-api-key` headers are forwarded through unchanged, so a
proxy secret presented under either of those two forms does reach the backend. -/
theorem c1_forwardHeaders_strips_only_authorization (h : HeaderList) :
    hGet (forwardHeaders h) "authorization" = none ∧
    hGet (forwardHeaders h) "x-goog-api-key" = hGet h "x-goog-api-key" ∧
    hGet (forwardHeaders h) "x-api-key" = hGet h "x-api-key" := by
  refine ⟨?_, ?_, ?_⟩ <;> simp [forwardHeaders, hGet_hDelete, hGet_hSet]

/-! ### Pool normalization lemmas -/

theorem mem_normalizePoolGo (seen : List String) (list : List PoolItem) (e : PoolItem)
    (he : e ∈ normalizePoolGo seen list) :
    ∃ it ∈ list, e = { key := jsTrim it.key, weight := some (it.weight.getD 1) } := by
  induction list generalizing seen with
  | nil => simp [normalizePoolGo] at he
  | cons it rest ih =>
    simp only [normalizePoolGo] at he
    by_cases hc : jsTrim it.key = "" ∨ seen.contains (jsTrim it.key)
    · rw [if_pos hc] at he
      obtain ⟨x, hx, hex⟩ := ih _ he
      exact ⟨x, List.mem_cons_of_mem _ hx, hex⟩
    · rw [if_neg hc] at he
      rcases List.mem_cons.mp he with h | h
      · exact ⟨it, List.mem_cons_self _ _, h⟩
      · obtain ⟨x, hx, hex⟩ := ih _ h
        exact ⟨x, List.mem_cons_of_mem _ hx, hex⟩

theorem mem_normalizePool (list : List PoolItem) (e : PoolItem) (he : e ∈ normalizePool list) :
    ∃ it ∈ list, e = { key := jsTrim it.key, weight := some (it.weight.getD 1) } :=
  mem_normalizePoolGo [] list e he

theorem mem_clearExpired (p : List PoolItem) (now : Int) (e : PoolItem)
    (he : e ∈ clearExpired p now) :
    ∃ x ∈ p, e = x ∨ e = { x with cooldownUntil := none } := by
  unfold clearExpired at he
  obtain ⟨x, hx, hfx⟩ := List.mem_map.mp he
  refine ⟨x, hx, ?_⟩
  cases hcd : x.cooldownUntil with
  | none => left; rw [← hfx]; simp [hcd]
  | some c =>
    by_cases h : c ≠ 0 ∧ c < now
    · right; rw [← hfx]; simp [hcd, h]
    · left; rw [← hfx]; simp [hcd, h]

/-- Every entry of a freshly loaded pool has the shape `normalizePool` emits:
no `bad` flag, no cooldown, an explicit weight. -/
theorem loadPool_pool_fresh (kvDoc : Option (List PoolItem)) (gk : Option String)
    (ureq : Option (HeaderList × String)) (now : Int) :
    ∀ e ∈ (loadPool kvDoc gk ureq now).pool,
      e.bad = false ∧ e.cooldownUntil = none ∧ e.weight ≠ none := by
  intro e he
  have hnorm : ∀ (l : List PoolItem) (x : PoolItem), x ∈ normalizePool l →
      x.bad = false ∧ x.cooldownUntil = none ∧ x.weight ≠ none := by
    intro l x hx
    obtain ⟨it, _, rfl⟩ := mem_normalizePool l x hx
    exact ⟨rfl, rfl, by simp⟩
  unfold loadPool at he
  simp only at he
  obtain ⟨x, hx, hcase⟩ := mem_clearExpired _ _ _ he
  have hxf : x.bad = false ∧ x.cooldownUntil = none ∧ x.weight ≠ none := by
    rcases kvDoc with _ | keys <;> rcases gk with _ | s <;> simp only at hx <;>
        (repeat' split at hx) <;>
      first
        | exact absurd hx (by simp)
        | exact hnorm _ _ hx
  rcases hcase with rfl | rfl
  · exact hxf
  · exact ⟨hxf.1, rfl, hxf.2.2⟩

/-! ### C5 -/

/-- C5, counterexample: the claim says every entry of the normalized pool has
weight at least 1.  Loading the durable document `{"keys":[{"key":"a","weight":0}]}`
yields a pool whose single entry keeps weight 0, which is below 1. -/
theorem c5_counterexample :
    ((loadPool (some [{ key := "a", weight := some 0 }]) none none 0).pool.map
        (fun it => it.weight)) = [some 0] ∧ ¬ ((1 : ℚ) ≤ 0) := by
  exact ⟨by decide, by norm_num⟩

/-- C5, amended: a missing weight defaults to 1, but an explicitly supplied
weight from the durable document is preserved as-is (no clamping, so values
below 1 survive); entries built from the fallback comma-separated string
always carry weight 1. -/
theorem c5_weight_default :
    (∀ (list : List PoolItem), ∀ e ∈ normalizePool list,
        ∃ it ∈ list, e.key = jsTrim it.key ∧ e.weight = some (it.weight.getD 1)) ∧
    (∀ (s : String) (now : Int), ∀ e ∈ (loadPool none (some s) none now).pool,
        e.weight = some 1) := by
  constructor
  · intro list e he
    obtain ⟨it, hit, rfl⟩ := mem_normalizePool list e he
    exact ⟨it, hit, rfl, rfl⟩
  · intro s now e he
    unfold loadPool at he
    simp only at he
    obtain ⟨x, hx, hcase⟩ := mem_clearExpired _ _ _ he
    have hxw : x.weight = some 1 := by
      repeat' split at hx
      all_goals
        first
          | exact absurd hx (by simp)
          | (obtain ⟨it, hit, rfl⟩ := mem_normalizePool _ _ hx;
             obtain ⟨t, _, rfl⟩ := List.mem_map.mp hit;
             rfl)
    rcases hcase with rfl | rfl
    · exact hxw
    · exact hxw

/-- C5 witness: instantiates both halves of `c5_weight_default` on concrete
inputs (a document entry with no weight, and the fallback string "k1,k2"). -/
theorem c5_weight_default_witness :
    (∃ it ∈ [({ key := "k1" } : PoolItem)],
        ({ key := "k1", weight := some 1 } : PoolItem).key = jsTrim it.key ∧
        ({ key := "k1", weight := some 1 } : PoolItem).weight = some (it.weight.getD 1)) ∧
    ({ key := "k1", weight := some 1 } : PoolItem).weight = some 1 := by
  constructor
  · exact c5_weight_default.1 [{ key := "k1" }] { key := "k1", weight := some 1 } (by decide)
  · exact c5_weight_default.2 "k1,k2" 0 { key := "k1", weight := some 1 } (by decide)

/-! ### Selector lemmas -/

theorem mem_usableList (pool : List PoolItem) (tried : List Nat) (now : Int)
    (i : Nat) (it : PoolItem) :
    (i, it) ∈ usableList pool tried now ↔
      pool.get? i = some it ∧ canUse it now = true ∧ i ∉ tried := by
  unfold usableList
  rw [List.mem_filter, List.mk_mem_enum_iff_getElem?]
  simp only [Bool.and_eq_true, Bool.not_eq_true', ← List.get?_eq_getElem?]
  constructor
  · rintro ⟨h1, h2, h3⟩
    refine ⟨h1, h2, ?_⟩
    intro hmem
    rw [← List.elem_iff] at hmem
    simp only [List.contains] at h3
    rw [hmem] at h3
    cases h3
  · rintro ⟨h1, h2, h3⟩
    refine ⟨h1, h2, ?_⟩
    have : ¬ tried.contains i := fun hc => h3 (List.elem_iff.mp hc)
    simpa using this

theorem mem_usableList_idx (pool : List PoolItem) (tried : List Nat) (now : Int) (i : Nat) :
    i ∈ (usableList pool tried now).map Prod.fst ↔
      ∃ it, pool.get? i = some it ∧ canUse it now = true ∧ i ∉ tried := by
  simp only [List.mem_map]
  constructor
  · rintro ⟨⟨j, it⟩, hmem, rfl⟩
    exact ⟨it, (mem_usableList pool tried now j it).mp hmem⟩
  · rintro ⟨it, h1, h2, h3⟩
    exact ⟨(i, it), (mem_usableList pool tried now i it).mpr ⟨h1, h2, h3⟩, rfl⟩

theorem weightedWalk_mem (r : ℚ) (l : List (Nat × PoolItem)) (i : Nat)
    (h : weightedWalk r l = some i) : i ∈ l.map Prod.fst := by
  induction l generalizing r with
  | nil => simp [weightedWalk] at h
  | cons x xs ih =>
    simp only [weightedWalk] at h
    simp only [List.map_cons]
    by_cases hc : r - x.2.weight.getD 1 ≤ 0
    · rw [if_pos hc] at h
      injection h with h
      exact h ▸ List.mem_cons_self _ _
    · rw [if_neg hc] at h
      exact List.mem_cons_of_mem _ (ih _ h)

theorem weightedPick_mem (usable : List (Nat × PoolItem)) (rnd : ℚ) (h : usable ≠ []) :
    ∃ i : Nat, weightedPick usable rnd = (i : Int) ∧ i ∈ usable.map Prod.fst := by
  cases hw : weightedWalk (rnd * usable.foldl (fun s x => s + x.2.weight.getD 1) 0) usable with
  | some i =>
    refine ⟨i, ?_, weightedWalk_mem _ _ _ hw⟩
    simp only [weightedPick]
    rw [hw]
  | none =>
    cases hlast : usable.getLast? with
    | none => exact absurd (List.getLast?_eq_none_iff.mp hlast) h
    | some p =>
      refine ⟨p.1, ?_, ?_⟩
      · simp only [weightedPick]
        rw [hw, hlast]
        simp
      · exact List.mem_map.mpr ⟨p, List.mem_of_mem_getLast? hlast, rfl⟩

/-! ### C6 -/

/-- C6: `pickIndex` returns -1 exactly when the candidate set — the usable,
not-yet-tried indices — is empty, and otherwise returns an index belonging to
that candidate set; the candidate set is exactly the set of indices whose
entries pass `canUse` and are absent from `triedIndices`.  The hypothesis pins
a supplied sticky index inside the pool bounds, which is how the only call
site computes it (`hashStr(seed) % pool.length`). -/
theorem c6_pickIndex (pool : List PoolItem) (sticky : Option Nat) (tried : List Nat)
    (rnd : ℚ) (now : Int)
    (hs : ∀ s, sticky = some s → s < pool.length) :
    ∃ r : Int, pickIndex pool sticky tried rnd now = .ok r ∧
      (r = -1 ↔ usableList pool tried now = []) ∧
      (r ≠ -1 → ∃ i : Nat, r = (i : Int) ∧ i ∈ (usableList pool tried now).map Prod.fst) ∧
      (∀ i : Nat, i ∈ (usableList pool tried now).map Prod.fst ↔
        ∃ it, pool.get? i = some it ∧ canUse it now = true ∧ i ∉ tried) := by
  by_cases hu : (usableList pool tried now).length = 0
  · have hempty : usableList pool tried now = [] := List.length_eq_zero.mp hu
    refine ⟨-1, ?_, by simp [hempty], by simp, fun i => mem_usableList_idx pool tried now i⟩
    simp only [pickIndex]
    rw [if_pos hu]
  · have hne : usableList pool tried now ≠ [] := fun hh => hu (by simp [hh])
    have hmain : ∃ i : Nat, pickIndex pool sticky tried rnd now = .ok (i : Int) ∧
        i ∈ (usableList pool tried now).map Prod.fst := by
      cases sticky with
      | none =>
        obtain ⟨i, heq, hmem⟩ := weightedPick_mem (usableList pool tried now) rnd hne
        refine ⟨i, ?_, hmem⟩
        simp only [pickIndex]
        rw [if_neg hu, heq]
      | some s =>
        by_cases ht : tried.contains s = true
        · obtain ⟨i, heq, hmem⟩ := weightedPick_mem (usableList pool tried now) rnd hne
          refine ⟨i, ?_, hmem⟩
          simp only [pickIndex]
          rw [if_neg hu, if_pos ht, heq]
        · have hsl : s < pool.length := hs s rfl
          obtain ⟨it, hget⟩ : ∃ it, pool.get? s = some it :=
            ⟨pool.get ⟨s, hsl⟩, List.get?_eq_get hsl⟩
          by_cases hcu : canUse it now = true
          · refine ⟨s, ?_, ?_⟩
            · simp only [pickIndex]
              rw [if_neg hu, if_neg ht, hget]
              simp [hcu]
            · refine (mem_usableList_idx pool tried now s).mpr ⟨it, hget, hcu, ?_⟩
              intro hmem
              exact ht (by simpa using hmem)
          · obtain ⟨i, heq, hmem⟩ := weightedPick_mem (usableList pool tried now) rnd hne
            refine ⟨i, ?_, hmem⟩
            simp only [pickIndex]
            rw [if_neg hu, if_neg ht, hget]
            simp [hcu, heq]
    obtain ⟨i, heq, hmem⟩ := hmain
    refine ⟨(i : Int), heq, ?_, fun _ => ⟨i, rfl, hmem⟩,
      fun j => mem_usableList_idx pool tried now j⟩
    constructor
    · intro hcontra
      exfalso
      omega
    · intro hh
      exact absurd hh hne

/-- C6 witness: a one-entry pool with no sticky index and nothing tried. -/
theorem c6_pickIndex_witness :
    ∃ r : Int, pickIndex [{ key := "A" }] none [] 0 0 = .ok r ∧
      (r = -1 ↔ usableList [{ key := "A" }] [] 0 = []) ∧
      (r ≠ -1 → ∃ i : Nat, r = (i : Int) ∧
        i ∈ (usableList [{ key := "A" }] [] 0).map Prod.fst) ∧
      (∀ i : Nat, i ∈ (usableList [{ key := "A" }] [] 0).map Prod.fst ↔
        ∃ it, List.get? [{ key := "A" }] i = some it ∧ canUse it 0 = true ∧ i ∉ ([] : List Nat)) :=
  c6_pickIndex [{ key := "A" }] none [] 0 0 (fun s h => by cases h)

/-! ### C7 -/

/-- C7: when the sticky index has not been tried and its entry is usable,
`pickIndex` returns exactly that index, and the result does not depend on the
random draw (no weighted selection happens); once the sticky index has been
tried, `pickIndex` never returns it again. -/
theorem c7_sticky_priority (pool : List PoolItem) (s : Nat) (tried : List Nat)
    (rnd rnd' : ℚ) (now : Int) :
    (∀ it, tried.contains s = false → pool.get? s = some it → canUse it now = true →
      pickIndex pool (some s) tried rnd now = .ok (s : Int) ∧
      pickIndex pool (some s) tried rnd now = pickIndex pool (some s) tried rnd' now) ∧
    (tried.contains s = true →
      ∀ r : Int, pickIndex pool (some s) tried rnd now = .ok r → r ≠ (s : Int)) := by
  constructor
  · intro it ht hget hcu
    have hnotmem : s ∉ tried := by
      intro hmem
      rw [show tried.contains s = true by simpa using hmem] at ht
      cases ht
    have hmem : (s, it) ∈ usableList pool tried now :=
      (mem_usableList pool tried now s it).mpr ⟨hget, hcu, hnotmem⟩
    have hu : ¬ (usableList pool tried now).length = 0 := by
      intro hzero
      rw [List.length_eq_zero.mp hzero] at hmem
      cases hmem
    have hok : ∀ q : ℚ, pickIndex pool (some s) tried q now = .ok (s : Int) := by
      intro q
      simp only [pickIndex]
      rw [if_neg hu, if_neg (by rw [ht]; exact Bool.false_ne_true), hget]
      simp [hcu]
    exact ⟨hok rnd, (hok rnd).trans (hok rnd').symm⟩
  · intro ht r heq hrs
    by_cases hu : (usableList pool tried now).length = 0
    · simp only [pickIndex] at heq
      rw [if_pos hu] at heq
      injection heq with heq
      rw [hrs] at heq
      omega
    · have hne : usableList pool tried now ≠ [] := fun hh => hu (by simp [hh])
      obtain ⟨i, hwp, hmem⟩ := weightedPick_mem (usableList pool tried now) rnd hne
      simp only [pickIndex] at heq
      rw [if_neg hu, if_pos ht, hwp] at heq
      injection heq with heq
      obtain ⟨it, _, _, hnot⟩ := (mem_usableList_idx pool tried now i).mp hmem
      apply hnot
      have : i = s := by
        have : (i : Int) = (s : Int) := by rw [heq, hrs]
        exact_mod_cast this
      rw [this]
      simpa using ht

/-- C7 witness: a two-entry pool; sticky index 1 untried and usable is picked;
after index 1 has been tried, it is never picked again. -/
theorem c7_sticky_priority_witness :
    (pickIndex [{ key := "A" }, { key := "B" }] (some 1) [] 0 0 = .ok ((1 : Nat) : Int) ∧
      pickIndex [{ key := "A" }, { key := "B" }] (some 1) [] 0 0 =
        pickIndex [{ key := "A" }, { key := "B" }] (some 1) [] 1 0) ∧
    (∀ r : Int, pickIndex [{ key := "A" }, { key := "B" }] (some 1) [1] 0 0 = .ok r →
      r ≠ ((1 : Nat) : Int)) := by
  constructor
  · exact (c7_sticky_priority [{ key := "A" }, { key := "B" }] 1 [] 0 1 0).1
      { key := "B" } (by decide) (by decide) (by decide)
  · exact (c7_sticky_priority [{ key := "A" }, { key := "B" }] 1 [1] 0 0 0).2 (by decide)

/-! ### C8 -/

theorem clearExpired_length (p : List PoolItem) (now : Int) :
    (clearExpired p now).length = p.length :=
  List.length_map _ _

theorem hashStr_fold_lt (l : List Char) (h : Nat) (hh : h < 4294967296) :
    l.foldl (fun h c => ((h ^^^ c.toNat) * 16777619) % 4294967296) h < 4294967296 := by
  induction l generalizing h with
  | nil => simpa using hh
  | cons c rest ih => exact ih _ (Nat.mod_lt _ (by norm_num))

/-- C8: the sticky index is `hashStr(seed) % pool.length` where `hashStr` is
the 32-bit FNV-1a-style hash (always below 2^32); the computation is a pure
function of the seed and the pool size (determinism), and there are seeds for
which a changed pool size changes the index. -/
theorem c8_sticky_deterministic :
    (∀ (kv : Option (List PoolItem)) (gk : Option String) (hdrs : HeaderList)
        (host : String) (now : Int),
      (loadPool kv gk (some (hdrs, host)) now).pool.length ≠ 0 →
      stickySeedOf hdrs host ≠ "" →
      (loadPool kv gk (some (hdrs, host)) now).stickyIndex =
        some (hashStr (stickySeedOf hdrs host) %
          (loadPool kv gk (some (hdrs, host)) now).pool.length)) ∧
    (∀ (s₁ s₂ : String) (n₁ n₂ : Nat), s₁ = s₂ → n₁ = n₂ →
      hashStr s₁ % n₁ = hashStr s₂ % n₂) ∧
    (∀ s : String, hashStr s < 2 ^ 32) ∧
    (∃ (s : String) (n m : Nat), 0 < n ∧ 0 < m ∧ n ≠ m ∧
      hashStr s % n ≠ hashStr s % m) := by
  refine ⟨?_, ?_, ?_, ?_⟩
  · intro kv gk hdrs host now hlen hseed
    simp only [loadPool, clearExpired_length] at hlen ⊢
    rw [if_pos (Nat.pos_of_ne_zero hlen), if_pos hseed]
  · intro s₁ s₂ n₁ n₂ h1 h2
    rw [h1, h2]
  · intro s
    have := hashStr_fold_lt s.data 2166136261 (by norm_num)
    simpa [hashStr] using this
  · exact ⟨"b", 1, 2, by norm_num, by norm_num, by norm_num, by decide⟩

/-- C8 witness: a concrete two-key pool; the seed falls back to the hostname
since no header of the sticky chain is present. -/
theorem c8_sticky_deterministic_witness :
    (loadPool none (some "k1,k2") (some ([], "example.com")) 0).stickyIndex =
      some (hashStr (stickySeedOf [] "example.com") %
        (loadPool none (some "k1,k2") (some ([], "example.com")) 0).pool.length) ∧
    hashStr "seed" % 3 = hashStr "seed" % 3 := by
  constructor
  · exact c8_sticky_deterministic.1 none (some "k1,k2") [] "example.com" 0
      (by decide) (by decide)
  · exact c8_sticky_deterministic.2.1 "seed" "seed" 3 3 rfl rfl

/-! ### C2 -/

/-- C2: in the retry loop, once an entry has been picked and is usable, an
upstream 429 sets its cooldown to `now + 30000`, records the cloned response
as the last error, and the loop proceeds to the next attempt; an upstream 401
or 403 sets the entry's `bad` flag, records the cloned response, and proceeds;
a network-level failure records the error and sets a `now + 5000` cooldown,
and proceeds.  In each case one upstream call is counted. -/
theorem c2_attempt_classification
    (oracle : Nat → String → UpstreamResult) (rnd : Nat → ℚ) (now : Int)
    (sticky : Option Nat) (origin : Option String)
    (fuel attemptNo : Nat) (st : LoopState) (i : Int) (it : PoolItem)
    (hpick : pickIndex st.pool sticky st.tried (rnd attemptNo) now = .ok i)
    (hi : 0 ≤ i)
    (hget : st.pool[i.toNat]? = some it)
    (huse : canUse it now = true) :
    (∀ hdrs body, oracle attemptNo it.key = .resp 429 hdrs body →
      runLoop oracle rnd now sticky origin (fuel + 1) attemptNo st =
        ((runLoop oracle rnd now sticky origin fuel (attemptNo + 1)
            { pool := st.pool.set i.toNat { it with cooldownUntil := some (now + 30000) },
              tried := st.tried ++ [i.toNat],
              lastErr := .respErr 429 (safeCloneBody body) }).1,
         (runLoop oracle rnd now sticky origin fuel (attemptNo + 1)
            { pool := st.pool.set i.toNat { it with cooldownUntil := some (now + 30000) },
              tried := st.tried ++ [i.toNat],
              lastErr := .respErr 429 (safeCloneBody body) }).2 + 1)) ∧
    (∀ status hdrs body, status = 401 ∨ status = 403 →
      oracle attemptNo it.key = .resp status hdrs body →
      runLoop oracle rnd now sticky origin (fuel + 1) attemptNo st =
        ((runLoop oracle rnd now sticky origin fuel (attemptNo + 1)
            { pool := st.pool.set i.toNat { it with bad := true },
              tried := st.tried ++ [i.toNat],
              lastErr := .respErr status (safeCloneBody body) }).1,
         (runLoop oracle rnd now sticky origin fuel (attemptNo + 1)
            { pool := st.pool.set i.toNat { it with bad := true },
              tried := st.tried ++ [i.toNat],
              lastErr := .respErr status (safeCloneBody body) }).2 + 1)) ∧
    (∀ msg, oracle attemptNo it.key = .netErr msg →
      runLoop oracle rnd now sticky origin (fuel + 1) attemptNo st =
        ((runLoop oracle rnd now sticky origin fuel (attemptNo + 1)
            { pool := st.pool.set i.toNat { it with cooldownUntil := some (now + 5000) },
              tried := st.tried ++ [i.toNat],
              lastErr := .exn msg }).1,
         (runLoop oracle rnd now sticky origin fuel (attemptNo + 1)
            { pool := st.pool.set i.toNat { it with cooldownUntil := some (now + 5000) },
              tried := st.tried ++ [i.toNat],
              lastErr := .exn msg }).2 + 1)) := by
  have hne : ¬ i = -1 := by omega
  refine ⟨?_, ?_, ?_⟩
  · intro hdrs body horacle
    simp [runLoop, hpick, hne, hget, huse, horacle]
  · rintro status hdrs body (rfl | rfl) horacle <;>
      simp [runLoop, hpick, hne, hget, huse, horacle]
  · intro msg horacle
    simp [runLoop, hpick, hne, hget, huse, horacle]

/-- C2 witness: one-entry pool, upstream answers 429; the loop records the
error, cools the entry down and exhausts. -/
theorem c2_attempt_classification_witness :
    runLoop (fun _ _ => .resp 429 [] "too many") (fun _ => 0) 1000 none none 1 0
        { pool := [{ key := "A" }], tried := [], lastErr := .initNull } =
      (.exhausted (.respErr 429 "too many"), 1) := by
  have h := (c2_attempt_classification (fun _ _ => .resp 429 [] "too many") (fun _ => 0) 1000
      none none 0 0 { pool := [{ key := "A" }], tried := [], lastErr := .initNull } 0
      { key := "A" }
      (by norm_num [pickIndex, usableList, weightedPick, weightedWalk, canUse,
        List.enum, List.enumFrom, List.filter])
      (by decide) (by rfl) (by decide)).1 [] "too many" rfl
  rw [h]
  rfl

/-! ### C3 -/

/-- C3: any upstream status outside {429, 401, 403} (in particular every 2xx)
stops the loop at once: the response is returned with the same status and the
same body stream, its headers being the upstream headers with the CORS headers
applied and `transfer-encoding` removed; exactly one upstream call is counted
and no further attempt happens. -/
theorem c3_passthrough
    (oracle : Nat → String → UpstreamResult) (rnd : Nat → ℚ) (now : Int)
    (sticky : Option Nat) (origin : Option String)
    (fuel attemptNo : Nat) (st : LoopState) (i : Int) (it : PoolItem)
    (status : Nat) (hdrs : HeaderList) (body : String)
    (hpick : pickIndex st.pool sticky st.tried (rnd attemptNo) now = .ok i)
    (hi : 0 ≤ i)
    (hget : st.pool[i.toNat]? = some it)
    (huse : canUse it now = true)
    (horacle : oracle attemptNo it.key = .resp status hdrs body)
    (h429 : status ≠ 429) (h401 : status ≠ 401) (h403 : status ≠ 403) :
    runLoop oracle rnd now sticky origin (fuel + 1) attemptNo st =
      (.returned { status := status,
                   headers := hDelete (applyCors hdrs origin) "transfer-encoding",
                   body := .stream body }, 1) ∧
    hGet (hDelete (applyCors hdrs origin) "transfer-encoding") "transfer-encoding" = none ∧
    hGet (hDelete (applyCors hdrs origin) "transfer-encoding") "access-control-allow-origin" =
      some (corsAllowValue origin) ∧
    hGet (hDelete (applyCors hdrs origin) "transfer-encoding") "access-control-allow-headers" =
      some "Content-Type, Authorization" ∧
    hGet (hDelete (applyCors hdrs origin) "transfer-encoding") "access-control-allow-methods" =
      some "GET, POST, OPTIONS" ∧
    (∀ k, k ≠ "transfer-encoding" → k ≠ "access-control-allow-origin" →
      k ≠ "access-control-allow-headers" → k ≠ "access-control-allow-methods" →
      hGet (hDelete (applyCors hdrs origin) "transfer-encoding") k = hGet hdrs k) := by
  have hne : ¬ i = -1 := by omega
  refine ⟨?_, ?_, ?_, ?_, ?_, ?_⟩
  · simp [runLoop, hpick, hne, hget, huse, horacle, h429, h401, h403]
  · simp [applyCors, corsHeaders, hGet_hDelete, hGet_hSet]
  · simp [applyCors, corsHeaders, hGet_hDelete, hGet_hSet]
  · simp [applyCors, corsHeaders, hGet_hDelete, hGet_hSet]
  · simp [applyCors, corsHeaders, hGet_hDelete, hGet_hSet]
  · intro k hk1 hk2 hk3 hk4
    simp [applyCors, corsHeaders, hGet_hDelete, hGet_hSet, hk1, hk2, hk3, hk4]

/-- C3 witness: a 200 response with a transfer-encoding header passes through
with that header removed, after exactly one upstream call. -/
theorem c3_passthrough_witness :
    runLoop (fun _ _ => .resp 200 [("transfer-encoding", "chunked"), ("x-upstream", "y")] "ok")
        (fun _ => 0) 1000 none none 2 0
        { pool := [{ key := "A" }], tried := [], lastErr := .initNull } =
      (.returned { status := 200,
                   headers := hDelete
                     (applyCors [("transfer-encoding", "chunked"), ("x-upstream", "y")] none)
                     "transfer-encoding",
                   body := .stream "ok" }, 1) ∧
    hGet (hDelete (applyCors [("transfer-encoding", "chunked"), ("x-upstream", "y")] none)
      "transfer-encoding") "transfer-encoding" = none := by
  have h := c3_passthrough
    (fun _ _ => .resp 200 [("transfer-encoding", "chunked"), ("x-upstream", "y")] "ok")
    (fun _ => 0) 1000 none none 1 0
    { pool := [{ key := "A" }], tried := [], lastErr := .initNull } 0 { key := "A" }
    200 [("transfer-encoding", "chunked"), ("x-upstream", "y")] "ok"
    (by norm_num [pickIndex, usableList, weightedPick, weightedWalk, canUse,
      List.enum, List.enumFrom, List.filter])
    (by decide) (by rfl) (by decide) rfl
    (by decide) (by decide) (by decide)
  exact ⟨h.1, h.2.1⟩

/-! ### C4 -/

/-- C4: when the retry loop exhausts without returning an upstream response,
the worker answers 502 with a JSON body whose `error` field is
"All keys failed" and whose `detail` field is `serializeErr` of the last
recorded error (the truncated-body clone of a classified upstream response,
or the message of a network failure); the body snippet kept in the clone is
at most 2048 characters. -/
theorem c4_all_failed
    (env : EnvModel) (req : Request) (oracle : Nat → String → UpstreamResult)
    (rnd : Nat → ℚ) (now : Int) (le : LastErr) (calls : Nat)
    (hm : req.method ≠ "OPTIONS")
    (hp : jsStartsWith req.pathname "/v1beta/" = true)
    (ha : checkProxyAuth req.headers env.proxyKey = true)
    (hpool : (loadPool env.kvDoc env.geminiKeys (some (req.headers, req.hostname)) now).pool.length
      ≠ 0)
    (hloop : runLoop oracle rnd now
        (loadPool env.kvDoc env.geminiKeys (some (req.headers, req.hostname)) now).stickyIndex
        (hGet req.headers "origin")
        (loadPool env.kvDoc env.geminiKeys (some (req.headers, req.hostname)) now).pool.length 0
        { pool := (loadPool env.kvDoc env.geminiKeys (some (req.headers, req.hostname)) now).pool,
          tried := [], lastErr := .initNull } = (.exhausted le, calls)) :
    handleFetch env req oracle rnd now =
      some (jsonResp (.jobj [("error", .jstr "All keys failed"),
                             ("detail", serializeErr le)]) 502
        (hGet req.headers "origin"), calls) ∧
    (∀ b : String, (safeCloneBody b).length ≤ 2048) := by
  have hh : req.pathname ≠ "/healthz" := by
    intro h
    rw [h] at hp
    exact absurd hp (by decide)
  constructor
  · simp only [handleFetch]
    rw [if_neg hm, if_neg hh, if_neg (by simp [hp]), if_neg (by simp [ha]), if_neg hpool, hloop]
  · intro b
    show (jsTake b 2048).length ≤ 2048
    have : (jsTake b 2048).length = (b.data.take 2048).length := rfl
    rw [this, List.length_take]
    exact min_le_left _ _

/-- C4 witness: a one-key pool whose only attempt is answered 401; the loop
exhausts and the worker returns the aggregated 502. -/
theorem c4_all_failed_witness :
    handleFetch { kvDoc := none, geminiKeys := some "A", proxyKey := some "s" }
        { method := "POST", pathname := "/v1beta/models/x", hostname := "example.com",
          headers := [("authorization", "Bearer s")] }
        (fun _ _ => .resp 401 [] "denied") (fun _ => 0) 1000 =
      some (jsonResp (.jobj [("error", .jstr "All keys failed"),
        ("detail", serializeErr (.respErr 401 "denied"))]) 502 none, 1) ∧
    (safeCloneBody "denied").length ≤ 2048 := by
  have h := c4_all_failed { kvDoc := none, geminiKeys := some "A", proxyKey := some "s" }
    { method := "POST", pathname := "/v1beta/models/x", hostname := "example.com",
      headers := [("authorization", "Bearer s")] }
    (fun _ _ => .resp 401 [] "denied") (fun _ => 0) 1000
    (.respErr 401 (safeCloneBody "denied")) 1
    (by decide) (by decide) (by decide) (by decide) (by rfl)
  exact ⟨h.1, h.2 "denied"⟩

/-! ### C9 -/

/-- C9, counterexample: the claim asserts a 401 for every request under the
proxy prefix on which the gate returns false.  An OPTIONS request under the
prefix with no credential at all is rejected by `checkProxyAuth` as a
function, yet the worker answers it with the CORS preflight (status 200, zero
upstream calls), not 401, because the preflight branch runs before the gate. -/
theorem c9_counterexample :
    checkProxyAuth [] (some "secret") = false ∧
    jsStartsWith "/v1beta/models" "/v1beta/" = true ∧
    handleFetch { kvDoc := none, geminiKeys := some "A", proxyKey := some "secret" }
        { method := "OPTIONS", pathname := "/v1beta/models", hostname := "example.com",
          headers := [] }
        (fun _ _ => .netErr "unused") (fun _ => 0) 0 =
      some ({ status := 200, headers := corsHeaders none, body := .noBody }, 0) ∧
    (200 : Nat) ≠ 401 := by
  exact ⟨by decide, by decide, by rfl, by decide⟩

/-- C9, amended: the gate returns false whenever no proxy secret (or an empty
one) is configured; with a non-empty secret it accepts exactly a match on one
of the three channels (bearer value of `authorization`, trimmed
`x-goog-api-key`, trimmed `x-api-key`); and every non-OPTIONS request under
the proxy prefix on which the gate returns false is answered 401 with zero
upstream calls — an OPTIONS request is answered with the CORS preflight
before the gate is consulted. -/
theorem c9_auth_gate :
    (∀ hdrs : HeaderList, checkProxyAuth hdrs none = false) ∧
    (∀ hdrs : HeaderList, checkProxyAuth hdrs (some "") = false) ∧
    (∀ (hdrs : HeaderList) (pk : String), pk ≠ "" →
      (checkProxyAuth hdrs (some pk) = true ↔
        (bearerToken hdrs = pk ∨ jsTrim ((hGet hdrs "x-goog-api-key").getD "") = pk ∨
          jsTrim ((hGet hdrs "x-api-key").getD "") = pk))) ∧
    (∀ (env : EnvModel) (req : Request) (oracle : Nat → String → UpstreamResult)
        (rnd : Nat → ℚ) (now : Int),
      req.method ≠ "OPTIONS" →
      jsStartsWith req.pathname "/v1beta/" = true →
      checkProxyAuth req.headers env.proxyKey = false →
      handleFetch env req oracle rnd now =
        some (jsonResp (.jobj [("error", .jstr "Unauthorized")]) 401
          (hGet req.headers "origin"), 0)) := by
  refine ⟨fun _ => rfl, fun _ => rfl, ?_, ?_⟩
  · intro hdrs pk hpk
    simp only [checkProxyAuth, hpk, if_false]
    simp [or_assoc]
  · intro env req oracle rnd now hm hp ha
    have hh : req.pathname ≠ "/healthz" := by
      intro h
      rw [h] at hp
      exact absurd hp (by decide)
    simp only [handleFetch]
    rw [if_neg hm, if_neg hh, if_neg (by simp [hp]), if_pos ha]

/-- C9 witness: the gate rejects with no secret and with an empty secret;
accepts the secret via `x-goog-api-key`; and a credential-less POST under the
prefix yields 401 with zero upstream calls. -/
theorem c9_auth_gate_witness :
    checkProxyAuth [("x-api-key", "zzz")] none = false ∧
    checkProxyAuth [("x-api-key", "zzz")] (some "") = false ∧
    (checkProxyAuth [("x-goog-api-key", "sec")] (some "sec") = true ↔
      (bearerToken [("x-goog-api-key", "sec")] = "sec" ∨
        jsTrim ((hGet [("x-goog-api-key", "sec")] "x-goog-api-key").getD "") = "sec" ∨
        jsTrim ((hGet [("x-goog-api-key", "sec")] "x-api-key").getD "") = "sec")) ∧
    handleFetch { kvDoc := none, geminiKeys := some "A", proxyKey := some "sec" }
        { method := "POST", pathname := "/v1beta/models", hostname := "h", headers := [] }
        (fun _ _ => .netErr "unused") (fun _ => 0) 0 =
      some (jsonResp (.jobj [("error", .jstr "Unauthorized")]) 401
        (hGet ([] : HeaderList) "origin"), 0) := by
  exact ⟨c9_auth_gate.1 _, c9_auth_gate.2.1 _, c9_auth_gate.2.2.1 _ "sec" (by decide),
    c9_auth_gate.2.2.2 _ _ _ _ 0 (by decide) (by decide) (by decide)⟩

/-! ### C10 -/

/-- C10: every pool returned by `loadPool` consists solely of entries that are
usable at load time (normalization keeps only key and weight, discarding any
stored disabled flag or cooldown timestamp), and consequently every GET
/healthz response reports `usable` equal to `size`, `ok` exactly when
`size > 0`, and makes zero upstream calls. -/
theorem c10_healthz (kv : Option (List PoolItem)) (gk : Option String)
    (ureq : Option (HeaderList × String)) (now : Int)
    (env : EnvModel) (req : Request) (oracle : Nat → String → UpstreamResult) (rnd : Nat → ℚ)
    (hm : req.method = "GET") (hh : req.pathname = "/healthz") :
    (∀ e ∈ (loadPool kv gk ureq now).pool,
        e.bad = false ∧ e.cooldownUntil = none ∧ canUse e now = true) ∧
    handleFetch env req oracle rnd now =
      some (jsonResp (.jobj
        [("ok", .jbool (decide (0 < (loadPool env.kvDoc env.geminiKeys none now).pool.length))),
         ("size", .jnum (loadPool env.kvDoc env.geminiKeys none now).pool.length),
         ("usable", .jnum (loadPool env.kvDoc env.geminiKeys none now).pool.length),
         ("ts", .jnum now)]) 200 (hGet req.headers "origin"), 0) := by
  constructor
  · intro e he
    obtain ⟨hb, hc, -⟩ := loadPool_pool_fresh kv gk ureq now e he
    exact ⟨hb, hc, by simp [canUse, hb, hc]⟩
  · have hfilter : (loadPool env.kvDoc env.geminiKeys none now).pool.filter
        (fun it => canUse it now) = (loadPool env.kvDoc env.geminiKeys none now).pool := by
      rw [List.filter_eq_self]
      intro a ha
      obtain ⟨hb, hc, -⟩ := loadPool_pool_fresh env.kvDoc env.geminiKeys none now a ha
      simp [canUse, hb, hc]
    have hmne : req.method ≠ "OPTIONS" := by rw [hm]; decide
    simp only [handleFetch]
    rw [if_neg hmne, if_pos hh, hfilter]

/-- C10 witness: a stored document entry carrying both a disabled flag and a
cooldown; loading discards both, and /healthz reports the entry as usable. -/
theorem c10_healthz_witness :
    (({ key := "a", weight := some 1 } : PoolItem).bad = false ∧
      ({ key := "a", weight := some 1 } : PoolItem).cooldownUntil = none ∧
      canUse { key := "a", weight := some 1 } 1000 = true) ∧
    handleFetch ⟨some [{ key := "a", cooldownUntil := some 99, bad := true }], none, some "sec"⟩
        ⟨"GET", "/healthz", "h", []⟩
        (fun _ _ => .netErr "unused") (fun _ => 0) 1000 =
      some (jsonResp (.jobj [("ok", .jbool true), ("size", .jnum 1), ("usable", .jnum 1),
        ("ts", .jnum 1000)]) 200 none, 0) := by
  constructor
  · exact (c10_healthz (some [{ key := "a", cooldownUntil := some 99, bad := true }]) none none
      1000 ⟨some [{ key := "a", cooldownUntil := some 99, bad := true }], none, some "sec"⟩
      ⟨"GET", "/healthz", "h", []⟩
      (fun _ _ => .netErr "unused") (fun _ => 0) rfl rfl).1
      { key := "a", weight := some 1 } (by decide)
  · exact (c10_healthz (some [{ key := "a", cooldownUntil := some 99, bad := true }]) none none
      1000 ⟨some [{ key := "a", cooldownUntil := some 99, bad := true }], none, some "sec"⟩
      ⟨"GET", "/healthz", "h", []⟩
      (fun _ _ => .netErr "unused") (fun _ => 0) rfl rfl).2

end CfGeminiProxy
